import Mathlib

/-!
Verification of the mapping-store and lifecycle core of a Telegram support
bot (`modules/database.py`, `modules/bot_runner.py`, `main.py`).

The store keeps one SQLite table
`users(user_id INTEGER PRIMARY KEY, topic_id INTEGER NOT NULL UNIQUE, ...)`
and exposes four CRUD operations guarded by argument validation, a
semaphore admission gate and per-call connections.  We embed:

* the SQL level: the table as a list of rows, `INSERT OR REPLACE`
  (which deletes every row conflicting on either unique column),
  point `SELECT`s as `find?`, `DELETE` as `filter`;
* the manager level: `DatabaseManager` state, validation, the
  not-initialized check, timeout/exception wrapping, and the event
  trace (gate acquire/release, connection open/close, query) each
  operation produces;
* the admission gate as a small transition system of interleaved tasks,
  for the concurrency-bound and completion properties;
* the lifecycle: `run_bot`'s race between the polling task and the
  shutdown waiter, and `main`'s try/except/finally.
-/

deriving instance DecidableEq for Except

namespace SupportBot

/-- One row of the `users` table (timestamp columns carry no claim content
and are omitted). -/
structure Row where
  user_id : Int
  topic_id : Int
deriving Repr, DecidableEq

/-- The `users` table: a list of live rows. -/
abbrev DB := List Row

/-- `INSERT OR REPLACE INTO users (user_id, topic_id) VALUES (u, t)`:
SQLite first deletes every row that conflicts with the new one on any
uniqueness constraint — here the `user_id` primary key and the
`topic_id UNIQUE` column — then inserts the new row. -/
def sqlInsertOrReplace (u t : Int) (db : DB) : DB :=
  db.filter (fun r => !(r.user_id == u) && !(r.topic_id == t)) ++ [⟨u, t⟩]

/-- `SELECT topic_id FROM users WHERE user_id = ?` followed by
`fetchone`: the first matching row, if any. -/
def sqlSelectTopic (u : Int) (db : DB) : Option Int :=
  (db.find? (fun r => r.user_id == u)).map Row.topic_id

/-- `SELECT user_id FROM users WHERE topic_id = ?` followed by
`fetchone`. -/
def sqlSelectUser (t : Int) (db : DB) : Option Int :=
  (db.find? (fun r => r.topic_id == t)).map Row.user_id

/-- `DELETE FROM users WHERE user_id = ?`: the surviving rows, paired
with `cursor.rowcount > 0` (whether any row matched). -/
def sqlDelete (u : Int) (db : DB) : DB × Bool :=
  (db.filter (fun r => !(r.user_id == u)), db.any (fun r => r.user_id == u))

/-- A Python value passed as an identifier argument (only the shapes the
validation code distinguishes). -/
inductive PyVal where
  | intVal (n : Int)
  | floatVal
  | strVal (s : String)
  | noneVal
deriving Repr, DecidableEq

/-- `isinstance(x, int) and x > 0`: the validation every operation runs
on each identifier before touching the gate or the database. -/
def isValidId : PyVal → Bool
  | .intVal n => 0 < n
  | _ => false

/-- The integer payload of a (valid) identifier argument. -/
def idInt : PyVal → Int
  | .intVal n => n
  | _ => 0

/-- Rendering of an argument inside an error message (Python f-string). -/
def pyRepr : PyVal → String
  | .intVal n => toString n
  | .floatVal => "float"
  | .strVal s => s
  | .noneVal => "None"

/-- The exception classes the store raises to its caller:
`ValueError` for validation failures, `DatabaseError` for everything
raised out of the try-block. -/
inductive PyError where
  | valueError (msg : String)
  | databaseError (msg : String)
deriving Repr, DecidableEq

/-- The exception class of an error — what an `except` clause (the
caller's only kind-level dispatch) can distinguish. -/
inductive ErrKind where
  | valueErrorKind
  | databaseErrorKind
deriving Repr, DecidableEq

/-- The kind (Python class) of a raised error. -/
def PyError.kind : PyError → ErrKind
  | .valueError _ => .valueErrorKind
  | .databaseError _ => .databaseErrorKind

/-- A low-level failure inside an operation's try-block. -/
inductive LowError where
  | timeoutError
  | operationalError (msg : String)
deriving Repr, DecidableEq

/-- The `except asyncio.TimeoutError` / `except Exception` clauses every
operation ends with: both re-raise `DatabaseError`, differing only in
the message text. -/
def wrapDbError : LowError → PyError
  | .timeoutError => .databaseError "Таймаут операции БД"
  | .operationalError m => .databaseError ("Ошибка БД: " ++ m)

/-- `DatabaseManager` state: the semaphore is created by the initialize
method and never destroyed; `_initialized` is a separate flag; the
database file content is `db`. -/
structure ManagerState where
  semaphoreCap : Option Nat
  isInit : Bool
  db : DB
deriving Repr, DecidableEq

/-- `DatabaseManager(db_path)`: fresh manager, no semaphore, empty file. -/
def newManager : ManagerState :=
  { semaphoreCap := none, isInit := false, db := [] }

/-- The initialize method: a no-op when already initialized; otherwise
creates the semaphore with the configured capacity, runs the schema
statements (pure DDL — no row changes) and sets the flag. -/
def initManager (maxConnections : Nat) (st : ManagerState) : ManagerState :=
  if st.isInit then st
  else { st with semaphoreCap := some maxConnections, isInit := true }

/-- The close method: closes the pooled connections (`_pool` is never
populated, so none), clears the pool and resets `_initialized` — but it
does NOT reset `_semaphore`. -/
def closeManager (st : ManagerState) : ManagerState :=
  { st with isInit := false }

/-- The store is in its Ready state. -/
def Ready (st : ManagerState) : Prop :=
  st.isInit = true ∧ st.semaphoreCap.isSome = true

/-- Observable resource events of one operation, in order. -/
inductive Event where
  | gateAcquire
  | connOpen
  | dbQuery
  | connClose
  | gateRelease
deriving Repr, DecidableEq

/-- How the I/O inside one operation's `_get_connection` scope turns
out: the connection opens and the queries succeed, or
`asyncio.wait_for` times out while opening, or some query raises. -/
inductive ConnOutcome where
  | ok
  | connectTimeout
  | queryFailure (msg : String)
deriving Repr, DecidableEq

/-- Result of one operation: the value returned or error raised, the
manager state afterwards, and the resource events that occurred. -/
structure OpOutput (α : Type) where
  result : Except PyError α
  state : ManagerState
  events : List Event
deriving Repr

/-- Shared shape of the four operations after validation has passed:
the `_get_connection` scope (not-initialized check, gate acquire,
bounded connection open, body, unconditional close/release in
`finally`) with the surrounding try/except wrapping.  `body` returns
the value and the new file content given the open connection. -/
def runWithConnection {α : Type} (st : ManagerState) (io : ConnOutcome)
    (body : DB → α × DB) : OpOutput α :=
  if st.semaphoreCap.isSome then
    match io with
    | .connectTimeout =>
        -- wait_for raises TimeoutError; finally: conn is None, release
        { result := .error (wrapDbError .timeoutError), state := st
          events := [.gateAcquire, .gateRelease] }
    | .queryFailure m =>
        -- body raises; finally: close conn, release; except wraps
        { result := .error (wrapDbError (.operationalError m)), state := st
          events := [.gateAcquire, .connOpen, .connClose, .gateRelease] }
    | .ok =>
        let r := body st.db
        { result := .ok r.1, state := { st with db := r.2 }
          events := [.gateAcquire, .connOpen, .dbQuery, .connClose, .gateRelease] }
  else
    -- _get_connection raises DatabaseError before acquiring; the
    -- operation's `except Exception` clause re-wraps it
    { result := .error (wrapDbError (.operationalError "DatabaseManager не инициализирован"))
      state := st, events := [] }

/-- `get_user_topic(user_id)`. -/
def get_user_topic (st : ManagerState) (user_id : PyVal) (io : ConnOutcome) :
    OpOutput (Option Int) :=
  if isValidId user_id then
    runWithConnection st io (fun db => (sqlSelectTopic (idInt user_id) db, db))
  else
    { result := .error (.valueError ("Некорректный user_id: " ++ pyRepr user_id))
      state := st, events := [] }

/-- `create_user_topic(user_id, topic_id)`. -/
def create_user_topic (st : ManagerState) (user_id topic_id : PyVal)
    (io : ConnOutcome) : OpOutput Unit :=
  if isValidId user_id then
    if isValidId topic_id then
      runWithConnection st io
        (fun db => ((), sqlInsertOrReplace (idInt user_id) (idInt topic_id) db))
    else
      { result := .error (.valueError ("Некорректный topic_id: " ++ pyRepr topic_id))
        state := st, events := [] }
  else
    { result := .error (.valueError ("Некорректный user_id: " ++ pyRepr user_id))
      state := st, events := [] }

/-- `get_user_by_topic(topic_id)`. -/
def get_user_by_topic (st : ManagerState) (topic_id : PyVal) (io : ConnOutcome) :
    OpOutput (Option Int) :=
  if isValidId topic_id then
    runWithConnection st io (fun db => (sqlSelectUser (idInt topic_id) db, db))
  else
    { result := .error (.valueError ("Некорректный topic_id: " ++ pyRepr topic_id))
      state := st, events := [] }

/-- `delete_user_topic(user_id)`. -/
def delete_user_topic (st : ManagerState) (user_id : PyVal) (io : ConnOutcome) :
    OpOutput Bool :=
  if isValidId user_id then
    runWithConnection st io (fun db => ((sqlDelete (idInt user_id) db).2,
                                        (sqlDelete (idInt user_id) db).1))
  else
    { result := .error (.valueError ("Некорректный user_id: " ++ pyRepr user_id))
      state := st, events := [] }

/-- A freshly initialized (Ready) store with the default capacity. -/
def readyStore : ManagerState := initManager 5 newManager

/-- The store after initialize-then-close. -/
def closedStore : ManagerState := closeManager readyStore

/-! ## SQL-level lemmas -/

lemma mem_insertOrReplace {r : Row} {u t : Int} {db : DB} :
    r ∈ sqlInsertOrReplace u t db ↔
      (r ∈ db ∧ r.user_id ≠ u ∧ r.topic_id ≠ t) ∨ r = ⟨u, t⟩ := by
  simp [sqlInsertOrReplace, List.mem_filter, and_assoc]

lemma find?_user_insertOrReplace (u t : Int) (db : DB) :
    (sqlInsertOrReplace u t db).find? (fun r => r.user_id == u) =
      some ⟨u, t⟩ := by
  unfold sqlInsertOrReplace
  rw [List.find?_append]
  have h : (db.filter fun r => !(r.user_id == u) && !(r.topic_id == t)).find?
      (fun r => r.user_id == u) = none := by
    rw [List.find?_eq_none]
    intro x hx
    rcases List.mem_filter.mp hx with ⟨-, hp⟩
    simp only [Bool.and_eq_true, Bool.not_eq_true', beq_eq_false_iff_ne] at hp
    simp [hp.1]
  rw [h]
  simp [List.find?]

lemma find?_topic_insertOrReplace (u t : Int) (db : DB) :
    (sqlInsertOrReplace u t db).find? (fun r => r.topic_id == t) =
      some ⟨u, t⟩ := by
  unfold sqlInsertOrReplace
  rw [List.find?_append]
  have h : (db.filter fun r => !(r.user_id == u) && !(r.topic_id == t)).find?
      (fun r => r.topic_id == t) = none := by
    rw [List.find?_eq_none]
    intro x hx
    rcases List.mem_filter.mp hx with ⟨-, hp⟩
    simp only [Bool.and_eq_true, Bool.not_eq_true', beq_eq_false_iff_ne] at hp
    simp [hp.2]
  rw [h]
  simp [List.find?]

lemma sqlSelectTopic_insertOrReplace (u t : Int) (db : DB) :
    sqlSelectTopic u (sqlInsertOrReplace u t db) = some t := by
  simp [sqlSelectTopic, find?_user_insertOrReplace]

lemma sqlSelectUser_insertOrReplace (u t : Int) (db : DB) :
    sqlSelectUser t (sqlInsertOrReplace u t db) = some u := by
  simp [sqlSelectUser, find?_topic_insertOrReplace]

/-! ## Operation-level reduction lemmas -/

lemma runWithConnection_ok {α : Type} (st : ManagerState) (body : DB → α × DB)
    (hr : st.semaphoreCap.isSome = true) :
    runWithConnection st .ok body =
      { result := .ok (body st.db).1, state := { st with db := (body st.db).2 }
        events := [.gateAcquire, .connOpen, .dbQuery, .connClose, .gateRelease] } := by
  simp [runWithConnection, hr]

lemma get_user_topic_ok (st : ManagerState) (u : Int) (hu : 0 < u)
    (hr : st.semaphoreCap.isSome = true) :
    get_user_topic st (.intVal u) .ok =
      { result := .ok (sqlSelectTopic u st.db), state := st
        events := [.gateAcquire, .connOpen, .dbQuery, .connClose, .gateRelease] } := by
  simp [get_user_topic, isValidId, hu, runWithConnection_ok _ _ hr, idInt]

lemma get_user_by_topic_ok (st : ManagerState) (t : Int) (ht : 0 < t)
    (hr : st.semaphoreCap.isSome = true) :
    get_user_by_topic st (.intVal t) .ok =
      { result := .ok (sqlSelectUser t st.db), state := st
        events := [.gateAcquire, .connOpen, .dbQuery, .connClose, .gateRelease] } := by
  simp [get_user_by_topic, isValidId, ht, runWithConnection_ok _ _ hr, idInt]

lemma create_user_topic_ok (st : ManagerState) (u t : Int) (hu : 0 < u)
    (ht : 0 < t) (hr : st.semaphoreCap.isSome = true) :
    create_user_topic st (.intVal u) (.intVal t) .ok =
      { result := .ok ()
        state := { st with db := sqlInsertOrReplace u t st.db }
        events := [.gateAcquire, .connOpen, .dbQuery, .connClose, .gateRelease] } := by
  simp [create_user_topic, isValidId, hu, ht, runWithConnection_ok _ _ hr, idInt]

lemma delete_user_topic_ok (st : ManagerState) (u : Int) (hu : 0 < u)
    (hr : st.semaphoreCap.isSome = true) :
    delete_user_topic st (.intVal u) .ok =
      { result := .ok (sqlDelete u st.db).2
        state := { st with db := (sqlDelete u st.db).1 }
        events := [.gateAcquire, .connOpen, .dbQuery, .connClose, .gateRelease] } := by
  simp [delete_user_topic, isValidId, hu, runWithConnection_ok _ _ hr, idInt]

/-- C1: for strictly positive `u`, `t`, on a Ready store,
`createUserTopic(u, t)` succeeds and afterwards `getUserTopic(u)`
returns `t` and `getUserByTopic(t)` returns `u`. -/
theorem create_then_get_roundtrip (st : ManagerState) (u t : Int)
    (hu : 0 < u) (ht : 0 < t) (hst : Ready st) :
    (create_user_topic st (.intVal u) (.intVal t) .ok).result = .ok () ∧
    (get_user_topic (create_user_topic st (.intVal u) (.intVal t) .ok).state
      (.intVal u) .ok).result = .ok (some t) ∧
    (get_user_by_topic (create_user_topic st (.intVal u) (.intVal t) .ok).state
      (.intVal t) .ok).result = .ok (some u) := by
  have hr := hst.2
  rw [create_user_topic_ok st u t hu ht hr]
  dsimp only
  refine ⟨rfl, ?_, ?_⟩
  · rw [get_user_topic_ok { st with db := sqlInsertOrReplace u t st.db } u hu hr]
    simp [sqlSelectTopic_insertOrReplace]
  · rw [get_user_by_topic_ok { st with db := sqlInsertOrReplace u t st.db } t ht hr]
    simp [sqlSelectUser_insertOrReplace]

/-- Witness for C1 at the spec's example values `u = 42`, `t = 1001`. -/
theorem create_then_get_roundtrip_witness :
    ((0 : Int) < 42 ∧ (0 : Int) < 1001 ∧ Ready readyStore) ∧
    ((create_user_topic readyStore (.intVal 42) (.intVal 1001) .ok).result = .ok () ∧
     (get_user_topic
        (create_user_topic readyStore (.intVal 42) (.intVal 1001) .ok).state
        (.intVal 42) .ok).result = .ok (some 1001) ∧
     (get_user_by_topic
        (create_user_topic readyStore (.intVal 42) (.intVal 1001) .ok).state
        (.intVal 1001) .ok).result = .ok (some 42)) :=
  ⟨⟨by decide, by decide, by constructor <;> rfl⟩,
   create_then_get_roundtrip readyStore 42 1001 (by decide) (by decide)
     ⟨by rfl, by rfl⟩⟩

lemma countP_user_insertOrReplace (u t : Int) (db : DB) :
    (sqlInsertOrReplace u t db).countP (fun r => r.user_id == u) = 1 := by
  unfold sqlInsertOrReplace
  rw [List.countP_append]
  have h : (db.filter fun r => !(r.user_id == u) && !(r.topic_id == t)).countP
      (fun r => r.user_id == u) = 0 := by
    rw [List.countP_eq_zero]
    intro x hx
    rcases List.mem_filter.mp hx with ⟨-, hp⟩
    simp only [Bool.and_eq_true, Bool.not_eq_true', beq_eq_false_iff_ne] at hp
    simp [hp.1]
  rw [h]
  simp

lemma sqlSelectUser_after_two_creates (u t1 t2 : Int) (db : DB)
    (hne : t1 ≠ t2) :
    sqlSelectUser t1 (sqlInsertOrReplace u t2 (sqlInsertOrReplace u t1 db)) =
      none := by
  unfold sqlSelectUser
  have h : (sqlInsertOrReplace u t2 (sqlInsertOrReplace u t1 db)).find?
      (fun r => r.topic_id == t1) = none := by
    rw [List.find?_eq_none]
    intro x hx
    rcases mem_insertOrReplace.mp hx with ⟨hx1, hxu, -⟩ | hx2
    · rcases mem_insertOrReplace.mp hx1 with ⟨-, -, hxt1⟩ | hx3
      · simp [hxt1]
      · subst hx3
        simp at hxu
    · subst hx2
      simp [hne.symm]
  rw [h]
  rfl

/-- C2 counterexample: with `t1 = t2 = 7` (both strictly positive), after
`createUserTopic(1, 7)` twice, `getUserByTopic(7)` returns `1`, not
none, so the claim fails when `t1 = t2`. -/
theorem create_twice_counterexample :
    (get_user_by_topic
      (create_user_topic
        (create_user_topic readyStore (.intVal 1) (.intVal 7) .ok).state
        (.intVal 1) (.intVal 7) .ok).state
      (.intVal 7) .ok).result = .ok (some 1) ∧
    (Except.ok (some 1) : Except PyError (Option Int)) ≠ .ok none := by
  exact ⟨by decide, by decide⟩

/-- C2 amended: for strictly positive `u`, `t1`, `t2` with `t1 ≠ t2`, the
second create replaces the first: exactly one row for `u` remains,
`getUserTopic(u)` returns `t2` and `getUserByTopic(t1)` returns none. -/
theorem create_twice_replaces (st : ManagerState) (u t1 t2 : Int)
    (hu : 0 < u) (h1 : 0 < t1) (h2 : 0 < t2) (hne : t1 ≠ t2)
    (hst : Ready st) :
    ((create_user_topic
        (create_user_topic st (.intVal u) (.intVal t1) .ok).state
        (.intVal u) (.intVal t2) .ok).state.db.countP
          (fun r => r.user_id == u) = 1) ∧
    (get_user_topic
      (create_user_topic
        (create_user_topic st (.intVal u) (.intVal t1) .ok).state
        (.intVal u) (.intVal t2) .ok).state (.intVal u) .ok).result =
      .ok (some t2) ∧
    (get_user_by_topic
      (create_user_topic
        (create_user_topic st (.intVal u) (.intVal t1) .ok).state
        (.intVal u) (.intVal t2) .ok).state (.intVal t1) .ok).result =
      .ok none := by
  have hr := hst.2
  rw [create_user_topic_ok st u t1 hu h1 hr]
  dsimp only
  rw [create_user_topic_ok { st with db := sqlInsertOrReplace u t1 st.db }
    u t2 hu h2 hr]
  dsimp only
  refine ⟨countP_user_insertOrReplace u t2 _, ?_, ?_⟩
  · rw [get_user_topic_ok
      { st with db := sqlInsertOrReplace u t2 (sqlInsertOrReplace u t1 st.db) }
      u hu hr]
    simp [sqlSelectTopic_insertOrReplace]
  · rw [get_user_by_topic_ok
      { st with db := sqlInsertOrReplace u t2 (sqlInsertOrReplace u t1 st.db) }
      t1 h1 hr]
    simp [sqlSelectUser_after_two_creates u t1 t2 st.db hne]

/-- Witness for the amended C2 at `u = 1`, `t1 = 7`, `t2 = 8`. -/
theorem create_twice_replaces_witness :
    ((0 : Int) < 1 ∧ (0 : Int) < 7 ∧ (0 : Int) < 8 ∧ (7 : Int) ≠ 8 ∧
      Ready readyStore) ∧
    (((create_user_topic
        (create_user_topic readyStore (.intVal 1) (.intVal 7) .ok).state
        (.intVal 1) (.intVal 8) .ok).state.db.countP
          (fun r => r.user_id == 1) = 1) ∧
     (get_user_topic
        (create_user_topic
          (create_user_topic readyStore (.intVal 1) (.intVal 7) .ok).state
          (.intVal 1) (.intVal 8) .ok).state (.intVal 1) .ok).result =
        .ok (some 8) ∧
     (get_user_by_topic
        (create_user_topic
          (create_user_topic readyStore (.intVal 1) (.intVal 7) .ok).state
          (.intVal 1) (.intVal 8) .ok).state (.intVal 7) .ok).result =
        .ok none) :=
  ⟨⟨by decide, by decide, by decide, by decide, ⟨rfl, rfl⟩⟩,
   create_twice_replaces readyStore 1 7 8 (by decide) (by decide) (by decide)
     (by decide) ⟨rfl, rfl⟩⟩

lemma sqlDelete_true_iff (u : Int) (db : DB) :
    (sqlDelete u db).2 = true ↔ sqlSelectTopic u db ≠ none := by
  unfold sqlDelete sqlSelectTopic
  rw [List.any_eq_true]
  constructor
  · rintro ⟨x, hx, hp⟩ hnone
    rw [Option.map_eq_none', List.find?_eq_none] at hnone
    exact hnone x hx hp
  · intro hne
    by_contra hall
    push_neg at hall
    apply hne
    rw [Option.map_eq_none', List.find?_eq_none]
    intro x hx hp
    exact absurd hp (by simpa using hall x hx)

lemma sqlSelectTopic_after_delete (u : Int) (db : DB) :
    sqlSelectTopic u (sqlDelete u db).1 = none := by
  unfold sqlSelectTopic sqlDelete
  dsimp only
  rw [Option.map_eq_none', List.find?_eq_none]
  intro x hx
  rcases List.mem_filter.mp hx with ⟨-, hp⟩
  simp only [Bool.not_eq_true', beq_eq_false_iff_ne] at hp
  simp [hp]

lemma sqlDelete_after_delete (u : Int) (db : DB) :
    (sqlDelete u (sqlDelete u db).1).2 = false := by
  have h := sqlSelectTopic_after_delete u db
  by_contra hfalse
  rw [Bool.not_eq_false, sqlDelete_true_iff] at hfalse
  exact hfalse h

/-- C4: for a strictly positive `u` on a Ready store,
`deleteUserTopic(u)` returns true exactly when a mapping for `u`
exists (and false, not an error, otherwise); after a delete,
`getUserTopic(u)` returns none and a second delete returns false. -/
theorem delete_semantics (st : ManagerState) (u : Int) (hu : 0 < u)
    (hst : Ready st) :
    ((delete_user_topic st (.intVal u) .ok).result = .ok true ↔
      (get_user_topic st (.intVal u) .ok).result ≠ .ok none) ∧
    ((delete_user_topic st (.intVal u) .ok).result = .ok false ↔
      (get_user_topic st (.intVal u) .ok).result = .ok none) ∧
    (get_user_topic (delete_user_topic st (.intVal u) .ok).state
      (.intVal u) .ok).result = .ok none ∧
    (delete_user_topic (delete_user_topic st (.intVal u) .ok).state
      (.intVal u) .ok).result = .ok false := by
  have hr := hst.2
  rw [delete_user_topic_ok st u hu hr, get_user_topic_ok st u hu hr]
  dsimp only
  refine ⟨?_, ?_, ?_, ?_⟩
  · have h := sqlDelete_true_iff u st.db
    simp only [ne_eq, Except.ok.injEq] at h ⊢
    exact h
  · have h := sqlDelete_true_iff u st.db
    simp only [ne_eq] at h
    simp only [Except.ok.injEq, Bool.eq_false_iff, ne_eq, h, not_not]
  · rw [get_user_topic_ok { st with db := (sqlDelete u st.db).1 } u hu hr]
    simp [sqlSelectTopic_after_delete]
  · rw [delete_user_topic_ok { st with db := (sqlDelete u st.db).1 } u hu hr]
    simp [sqlDelete_after_delete]

/-- Witness for C4 at `u = 42` on a store holding the mapping
`42 ↦ 1001` (the spec's example scenario). -/
theorem delete_semantics_witness :
    ((0 : Int) < 42 ∧
      Ready { readyStore with db := [⟨42, 1001⟩] }) ∧
    (((delete_user_topic { readyStore with db := [⟨42, 1001⟩] }
        (.intVal 42) .ok).result = .ok true ↔
      (get_user_topic { readyStore with db := [⟨42, 1001⟩] }
        (.intVal 42) .ok).result ≠ .ok none) ∧
     ((delete_user_topic { readyStore with db := [⟨42, 1001⟩] }
        (.intVal 42) .ok).result = .ok false ↔
      (get_user_topic { readyStore with db := [⟨42, 1001⟩] }
        (.intVal 42) .ok).result = .ok none) ∧
     (get_user_topic
        (delete_user_topic { readyStore with db := [⟨42, 1001⟩] }
          (.intVal 42) .ok).state (.intVal 42) .ok).result = .ok none ∧
     (delete_user_topic
        (delete_user_topic { readyStore with db := [⟨42, 1001⟩] }
          (.intVal 42) .ok).state (.intVal 42) .ok).result = .ok false) :=
  ⟨⟨by decide, ⟨rfl, rfl⟩⟩,
   delete_semantics { readyStore with db := [⟨42, 1001⟩] } 42 (by decide)
     ⟨rfl, rfl⟩⟩

/-! ## Reachable states and the bijection invariant (C3) -/

/-- One call of a mutating store operation, with its arguments and the
I/O outcome of its connection scope. -/
inductive StoreOp where
  | createOp (u t : PyVal) (io : ConnOutcome)
  | deleteOp (u : PyVal) (io : ConnOutcome)
deriving Repr, DecidableEq

/-- The manager state after one operation call (errors leave the file
unchanged). -/
def applyStoreOp (st : ManagerState) : StoreOp → ManagerState
  | .createOp u t io => (create_user_topic st u t io).state
  | .deleteOp u io => (delete_user_topic st u io).state

/-- The manager state after a sequence of operation calls on a freshly
initialized Ready store. -/
def runStoreOps (ops : List StoreOp) : ManagerState :=
  ops.foldl applyStoreOp readyStore

/-- The bijection invariant: no two live rows share a `user_id` and no
two live rows share a `topic_id`. -/
def BijectiveDB (db : DB) : Prop :=
  (db.map Row.user_id).Nodup ∧ (db.map Row.topic_id).Nodup

lemma bijective_insertOrReplace (u t : Int) (db : DB)
    (h : BijectiveDB db) : BijectiveDB (sqlInsertOrReplace u t db) := by
  have hsub : (db.filter fun r => !(r.user_id == u) && !(r.topic_id == t)).Sublist db :=
    List.filter_sublist db
  constructor
  · rw [sqlInsertOrReplace, List.map_append, List.nodup_append]
    refine ⟨(hsub.map Row.user_id).nodup h.1, List.nodup_singleton u, ?_⟩
    intro a ha hb
    rcases List.mem_map.mp ha with ⟨r, hr, hru⟩
    rcases List.mem_filter.mp hr with ⟨-, hp⟩
    simp only [Bool.and_eq_true, Bool.not_eq_true', beq_eq_false_iff_ne] at hp
    rcases List.mem_singleton.mp hb with rfl
    exact hp.1 hru
  · rw [sqlInsertOrReplace, List.map_append, List.nodup_append]
    refine ⟨(hsub.map Row.topic_id).nodup h.2, List.nodup_singleton t, ?_⟩
    intro a ha hb
    rcases List.mem_map.mp ha with ⟨r, hr, hrt⟩
    rcases List.mem_filter.mp hr with ⟨-, hp⟩
    simp only [Bool.and_eq_true, Bool.not_eq_true', beq_eq_false_iff_ne] at hp
    rcases List.mem_singleton.mp hb with rfl
    exact hp.2 hrt

lemma bijective_sqlDelete (u : Int) (db : DB) (h : BijectiveDB db) :
    BijectiveDB (sqlDelete u db).1 := by
  have hsub : ((sqlDelete u db).1).Sublist db := List.filter_sublist db
  exact ⟨(hsub.map Row.user_id).nodup h.1, (hsub.map Row.topic_id).nodup h.2⟩

lemma create_state_db (st : ManagerState) (u t : PyVal) (io : ConnOutcome) :
    (create_user_topic st u t io).state.db = st.db ∨
    (create_user_topic st u t io).state.db =
      sqlInsertOrReplace (idInt u) (idInt t) st.db := by
  unfold create_user_topic runWithConnection
  split_ifs <;> cases io <;> simp

lemma delete_state_db (st : ManagerState) (u : PyVal) (io : ConnOutcome) :
    (delete_user_topic st u io).state.db = st.db ∨
    (delete_user_topic st u io).state.db = (sqlDelete (idInt u) st.db).1 := by
  unfold delete_user_topic runWithConnection
  split_ifs <;> cases io <;> simp

lemma bijective_applyStoreOp (st : ManagerState) (op : StoreOp)
    (h : BijectiveDB st.db) : BijectiveDB (applyStoreOp st op).db := by
  cases op with
  | createOp u t io =>
    rcases create_state_db st u t io with hdb | hdb <;>
      rw [applyStoreOp, hdb]
    · exact h
    · exact bijective_insertOrReplace _ _ _ h
  | deleteOp u io =>
    rcases delete_state_db st u io with hdb | hdb <;>
      rw [applyStoreOp, hdb]
    · exact h
    · exact bijective_sqlDelete _ _ h

lemma bijective_foldl (ops : List StoreOp) (st : ManagerState)
    (h : BijectiveDB st.db) :
    BijectiveDB (ops.foldl applyStoreOp st).db := by
  induction ops generalizing st with
  | nil => exact h
  | cons op rest ih => exact ih _ (bijective_applyStoreOp st op h)

/-- C3: after any sequence of create/delete operations on a freshly
initialized Ready store, each `user_id` and each `topic_id` occurs in at
most one live row; in particular no two distinct live rows share a
`topic_id`. -/
theorem storeOps_bijective (ops : List StoreOp) :
    BijectiveDB (runStoreOps ops).db ∧
    ∀ r1 ∈ (runStoreOps ops).db, ∀ r2 ∈ (runStoreOps ops).db,
      r1.topic_id = r2.topic_id → r1 = r2 := by
  have h : BijectiveDB (runStoreOps ops).db :=
    bijective_foldl ops readyStore (by constructor <;> simp [readyStore, initManager, newManager])
  exact ⟨h, fun r1 h1 r2 h2 heq =>
    List.inj_on_of_nodup_map h.2 h1 h2 heq⟩

/-! ## Validation (C8) and error kinds (C7), initialization state (C6) -/

/-- The kind of the exception an operation raised, if any. -/
def raisedKind {α : Type} : Except PyError α → Option ErrKind
  | .error e => some e.kind
  | .ok _ => none

/-- C8: any non-positive or non-integer identifier makes every CRUD
operation raise `ValueError` synchronously: no gate slot is acquired,
no I/O event occurs, and the manager state is unchanged. -/
theorem invalid_id_rejected (st : ManagerState) (v w : PyVal)
    (io : ConnOutcome) (hv : isValidId v = false) :
    (raisedKind (get_user_topic st v io).result = some .valueErrorKind ∧
      (get_user_topic st v io).state = st ∧
      (get_user_topic st v io).events = []) ∧
    (raisedKind (get_user_by_topic st v io).result = some .valueErrorKind ∧
      (get_user_by_topic st v io).state = st ∧
      (get_user_by_topic st v io).events = []) ∧
    (raisedKind (delete_user_topic st v io).result = some .valueErrorKind ∧
      (delete_user_topic st v io).state = st ∧
      (delete_user_topic st v io).events = []) ∧
    (raisedKind (create_user_topic st v w io).result = some .valueErrorKind ∧
      (create_user_topic st v w io).state = st ∧
      (create_user_topic st v w io).events = []) ∧
    (raisedKind (create_user_topic st w v io).result = some .valueErrorKind ∧
      (create_user_topic st w v io).state = st ∧
      (create_user_topic st w v io).events = []) := by
  refine ⟨?_, ?_, ?_, ?_, ?_⟩
  · simp [get_user_topic, hv, raisedKind, PyError.kind]
  · simp [get_user_by_topic, hv, raisedKind, PyError.kind]
  · simp [delete_user_topic, hv, raisedKind, PyError.kind]
  · simp [create_user_topic, hv, raisedKind, PyError.kind]
  · by_cases hw : isValidId w <;>
      simp [create_user_topic, hv, hw, raisedKind, PyError.kind]

/-- Witness for C8 at `v = 0` (non-positive). -/
theorem invalid_id_rejected_witness :
    (isValidId (.intVal 0) = false) ∧
    ((raisedKind (get_user_topic readyStore (.intVal 0) .ok).result =
        some .valueErrorKind ∧
      (get_user_topic readyStore (.intVal 0) .ok).state = readyStore ∧
      (get_user_topic readyStore (.intVal 0) .ok).events = []) ∧
     (raisedKind (get_user_by_topic readyStore (.intVal 0) .ok).result =
        some .valueErrorKind ∧
      (get_user_by_topic readyStore (.intVal 0) .ok).state = readyStore ∧
      (get_user_by_topic readyStore (.intVal 0) .ok).events = []) ∧
     (raisedKind (delete_user_topic readyStore (.intVal 0) .ok).result =
        some .valueErrorKind ∧
      (delete_user_topic readyStore (.intVal 0) .ok).state = readyStore ∧
      (delete_user_topic readyStore (.intVal 0) .ok).events = []) ∧
     (raisedKind (create_user_topic readyStore (.intVal 0) (.intVal 3) .ok).result =
        some .valueErrorKind ∧
      (create_user_topic readyStore (.intVal 0) (.intVal 3) .ok).state = readyStore ∧
      (create_user_topic readyStore (.intVal 0) (.intVal 3) .ok).events = []) ∧
     (raisedKind (create_user_topic readyStore (.intVal 3) (.intVal 0) .ok).result =
        some .valueErrorKind ∧
      (create_user_topic readyStore (.intVal 3) (.intVal 0) .ok).state = readyStore ∧
      (create_user_topic readyStore (.intVal 3) (.intVal 0) .ok).events = [])) :=
  ⟨by decide, invalid_id_rejected readyStore (.intVal 0) (.intVal 3) .ok (by decide)⟩

lemma timeout_msg_ne (m : String) :
    "Таймаут операции БД" ≠ "Ошибка БД: " ++ m := by
  intro h
  have h2 := congrArg (fun s => s.data.head?) h
  simp only [String.data_append,
    show "Таймаут операции БД".data = 'Т' :: "аймаут операции БД".data from by decide,
    show "Ошибка БД: ".data = 'О' :: "шибка БД: ".data from by decide,
    List.cons_append, List.head?_cons] at h2
  exact absurd h2 (by decide)

/-- C7 counterexample: on a connection-open timeout the caller receives
an exception of exactly the same kind (`DatabaseError`) as for a
generic driver failure, so no kind-level (`except`-clause) dispatch can
distinguish them. -/
theorem timeout_same_kind_counterexample :
    (get_user_topic readyStore (.intVal 1) .connectTimeout).result =
      .error (.databaseError "Таймаут операции БД") ∧
    (get_user_topic readyStore (.intVal 1) (.queryFailure "disk I/O error")).result =
      .error (.databaseError ("Ошибка БД: " ++ "disk I/O error")) ∧
    (wrapDbError .timeoutError).kind =
      (wrapDbError (.operationalError "disk I/O error")).kind :=
  ⟨rfl, rfl, rfl⟩

/-- C7 amended: a connection-open timeout is surfaced as
`DatabaseError("Таймаут операции БД")` — the same exception kind as any
other database failure, distinguishable by the caller only through the
message text, which does differ from every generic wrap. -/
theorem timeout_message_distinct (st : ManagerState) (u : Int) (m : String)
    (hu : 0 < u) (hr : st.semaphoreCap.isSome = true) :
    (get_user_topic st (.intVal u) .connectTimeout).result =
      .error (.databaseError "Таймаут операции БД") ∧
    (get_user_topic st (.intVal u) (.queryFailure m)).result =
      .error (.databaseError ("Ошибка БД: " ++ m)) ∧
    (wrapDbError .timeoutError).kind = (wrapDbError (.operationalError m)).kind ∧
    wrapDbError .timeoutError ≠ wrapDbError (.operationalError m) := by
  refine ⟨?_, ?_, rfl, ?_⟩
  · simp [get_user_topic, isValidId, hu, runWithConnection, hr, wrapDbError]
  · simp [get_user_topic, isValidId, hu, runWithConnection, hr, wrapDbError]
  · intro h
    unfold wrapDbError at h
    injection h with h2
    exact timeout_msg_ne m h2

/-- Witness for the amended C7 at `u = 1`, `m = "disk I/O error"`. -/
theorem timeout_message_distinct_witness :
    ((0 : Int) < 1 ∧ readyStore.semaphoreCap.isSome = true) ∧
    ((get_user_topic readyStore (.intVal 1) .connectTimeout).result =
       .error (.databaseError "Таймаут операции БД") ∧
     (get_user_topic readyStore (.intVal 1) (.queryFailure "disk I/O error")).result =
       .error (.databaseError ("Ошибка БД: " ++ "disk I/O error")) ∧
     (wrapDbError .timeoutError).kind =
       (wrapDbError (.operationalError "disk I/O error")).kind ∧
     wrapDbError .timeoutError ≠ wrapDbError (.operationalError "disk I/O error")) :=
  ⟨⟨by decide, rfl⟩,
   timeout_message_distinct readyStore 1 "disk I/O error" (by decide) rfl⟩

/-- C6 counterexample: after initialize-then-close, `get_user_topic(1)`
executes normally — it acquires the gate, opens a connection, runs the
query and returns a value — instead of failing with the
not-initialized error, because `close` never resets the semaphore. -/
theorem closed_store_counterexample :
    closedStore.isInit = false ∧
    (get_user_topic closedStore (.intVal 1) .ok).result = .ok none ∧
    (get_user_topic closedStore (.intVal 1) .ok).events =
      [.gateAcquire, .connOpen, .dbQuery, .connClose, .gateRelease] :=
  ⟨by decide, by decide, by decide⟩

/-- C6 amended: a data operation on an Uninitialized store (the
semaphore was never created) raises `DatabaseError` wrapping the
not-initialized message, without any gate or I/O event and without
changing state; but after `close()` the semaphore survives, so data
operations on a Closed store execute normally rather than failing. -/
theorem uninitialized_rejected (st : ManagerState) (v w : PyVal)
    (io : ConnOutcome) (hsem : st.semaphoreCap = none)
    (hv : isValidId v = true) (hw : isValidId w = true) :
    ((get_user_topic st v io).result =
        .error (.databaseError ("Ошибка БД: " ++ "DatabaseManager не инициализирован")) ∧
      (get_user_topic st v io).state = st ∧ (get_user_topic st v io).events = []) ∧
    ((get_user_by_topic st v io).result =
        .error (.databaseError ("Ошибка БД: " ++ "DatabaseManager не инициализирован")) ∧
      (get_user_by_topic st v io).state = st ∧ (get_user_by_topic st v io).events = []) ∧
    ((delete_user_topic st v io).result =
        .error (.databaseError ("Ошибка БД: " ++ "DatabaseManager не инициализирован")) ∧
      (delete_user_topic st v io).state = st ∧ (delete_user_topic st v io).events = []) ∧
    ((create_user_topic st v w io).result =
        .error (.databaseError ("Ошибка БД: " ++ "DatabaseManager не инициализирован")) ∧
      (create_user_topic st v w io).state = st ∧ (create_user_topic st v w io).events = []) ∧
    ((get_user_topic closedStore (.intVal 1) .ok).result = .ok none ∧
      (get_user_topic closedStore (.intVal 1) .ok).events ≠ []) := by
  refine ⟨?_, ?_, ?_, ?_, by decide, by decide⟩
  · simp [get_user_topic, hv, runWithConnection, hsem, wrapDbError]
  · simp [get_user_by_topic, hv, runWithConnection, hsem, wrapDbError]
  · simp [delete_user_topic, hv, runWithConnection, hsem, wrapDbError]
  · simp [create_user_topic, hv, hw, runWithConnection, hsem, wrapDbError]

/-- Witness for the amended C6 on a fresh (never-initialized) manager. -/
theorem uninitialized_rejected_witness :
    (newManager.semaphoreCap = none ∧ isValidId (.intVal 1) = true ∧
      isValidId (.intVal 2) = true) ∧
    (((get_user_topic newManager (.intVal 1) .ok).result =
        .error (.databaseError ("Ошибка БД: " ++ "DatabaseManager не инициализирован")) ∧
      (get_user_topic newManager (.intVal 1) .ok).state = newManager ∧
      (get_user_topic newManager (.intVal 1) .ok).events = []) ∧
     ((get_user_by_topic newManager (.intVal 1) .ok).result =
        .error (.databaseError ("Ошибка БД: " ++ "DatabaseManager не инициализирован")) ∧
      (get_user_by_topic newManager (.intVal 1) .ok).state = newManager ∧
      (get_user_by_topic newManager (.intVal 1) .ok).events = []) ∧
     ((delete_user_topic newManager (.intVal 1) .ok).result =
        .error (.databaseError ("Ошибка БД: " ++ "DatabaseManager не инициализирован")) ∧
      (delete_user_topic newManager (.intVal 1) .ok).state = newManager ∧
      (delete_user_topic newManager (.intVal 1) .ok).events = []) ∧
     ((create_user_topic newManager (.intVal 1) (.intVal 2) .ok).result =
        .error (.databaseError ("Ошибка БД: " ++ "DatabaseManager не инициализирован")) ∧
      (create_user_topic newManager (.intVal 1) (.intVal 2) .ok).state = newManager ∧
      (create_user_topic newManager (.intVal 1) (.intVal 2) .ok).events = []) ∧
     ((get_user_topic closedStore (.intVal 1) .ok).result = .ok none ∧
      (get_user_topic closedStore (.intVal 1) .ok).events ≠ [])) :=
  ⟨⟨rfl, by decide, by decide⟩,
   uninitialized_rejected newManager (.intVal 1) (.intVal 2) .ok rfl
     (by decide) (by decide)⟩

/-! ## Last-write-wins on topic conflict (C10) -/

lemma sqlSelectTopic_other_after_insert (u1 u2 t : Int) (db : DB)
    (hne : u1 ≠ u2) (hnodup : (db.map Row.user_id).Nodup)
    (hsel : sqlSelectTopic u1 db = some t) :
    sqlSelectTopic u1 (sqlInsertOrReplace u2 t db) = none := by
  rcases Option.map_eq_some'.mp hsel with ⟨row, hfind, hrt⟩
  have hrow_mem : row ∈ db := List.mem_of_find?_eq_some hfind
  have hrow_u : row.user_id = u1 := by
    have := List.find?_some hfind
    simpa using this
  unfold sqlSelectTopic
  rw [Option.map_eq_none', List.find?_eq_none]
  intro x hx
  rcases mem_insertOrReplace.mp hx with ⟨hx1, -, hxt⟩ | hx2
  · intro hpx
    have hxu : x.user_id = u1 := by simpa using hpx
    have hxrow : x = row :=
      List.inj_on_of_nodup_map hnodup hx1 hrow_mem (hxu.trans hrow_u.symm)
    exact hxt (by rw [hxrow, hrt])
  · subst hx2
    simp [hne.symm]

/-- C10: calling `createUserTopic(u2, t)` while `t` is already mapped to
a different user `u1` succeeds (the unique constraint never rejects the
call): `u1`'s row is silently removed, so `getUserTopic(u1)` then
returns none and `getUserByTopic(t)` returns `u2`. -/
theorem create_steals_topic (st : ManagerState) (u1 u2 t : Int)
    (h1 : 0 < u1) (h2 : 0 < u2) (ht : 0 < t) (hne : u1 ≠ u2)
    (hst : Ready st) (hnodup : (st.db.map Row.user_id).Nodup)
    (hmap : (get_user_topic st (.intVal u1) .ok).result = .ok (some t)) :
    (create_user_topic st (.intVal u2) (.intVal t) .ok).result = .ok () ∧
    (get_user_topic (create_user_topic st (.intVal u2) (.intVal t) .ok).state
      (.intVal u1) .ok).result = .ok none ∧
    (get_user_by_topic (create_user_topic st (.intVal u2) (.intVal t) .ok).state
      (.intVal t) .ok).result = .ok (some u2) := by
  have hr := hst.2
  have hsel : sqlSelectTopic u1 st.db = some t := by
    rw [get_user_topic_ok st u1 h1 hr] at hmap
    simpa using hmap
  rw [create_user_topic_ok st u2 t h2 ht hr]
  dsimp only
  refine ⟨rfl, ?_, ?_⟩
  · rw [get_user_topic_ok { st with db := sqlInsertOrReplace u2 t st.db } u1 h1 hr]
    simp [sqlSelectTopic_other_after_insert u1 u2 t st.db hne hnodup hsel]
  · rw [get_user_by_topic_ok { st with db := sqlInsertOrReplace u2 t st.db } t ht hr]
    simp [sqlSelectUser_insertOrReplace]

/-- Witness for C10: store holds `1 ↦ 100`; `createUserTopic(2, 100)`
steals the topic. -/
theorem create_steals_topic_witness :
    ((0 : Int) < 1 ∧ (0 : Int) < 2 ∧ (0 : Int) < 100 ∧ (1 : Int) ≠ 2 ∧
      Ready { readyStore with db := [⟨1, 100⟩] } ∧
      (({ readyStore with db := [⟨1, 100⟩] } : ManagerState).db.map
        Row.user_id).Nodup ∧
      (get_user_topic { readyStore with db := [⟨1, 100⟩] }
        (.intVal 1) .ok).result = .ok (some 100)) ∧
    ((create_user_topic { readyStore with db := [⟨1, 100⟩] }
        (.intVal 2) (.intVal 100) .ok).result = .ok () ∧
     (get_user_topic
        (create_user_topic { readyStore with db := [⟨1, 100⟩] }
          (.intVal 2) (.intVal 100) .ok).state (.intVal 1) .ok).result =
        .ok none ∧
     (get_user_by_topic
        (create_user_topic { readyStore with db := [⟨1, 100⟩] }
          (.intVal 2) (.intVal 100) .ok).state (.intVal 100) .ok).result =
        .ok (some 2)) :=
  ⟨⟨by decide, by decide, by decide, by decide, ⟨rfl, rfl⟩, by decide, by decide⟩,
   create_steals_topic { readyStore with db := [⟨1, 100⟩] } 1 2 100
     (by decide) (by decide) (by decide) (by decide) ⟨rfl, rfl⟩
     (by decide) (by decide)⟩

/-! ## Lifecycle: the shutdown race in `run_bot` and `main` (C9) -/

/-- Which branch of `asyncio.wait({polling, shutdown}, FIRST_COMPLETED)`
finishes first. -/
inductive RaceWinner where
  | pollingFails (e : String)
  | pollingReturns
  | shutdownSignaled
deriving Repr, DecidableEq

/-- Observable outcome of `run_bot`:  `raised` is the exception that
propagates out of the coroutine (if any); `unretrievedTaskError` is an
exception left sitting inside a completed task object that the code
never reads; the two flags record the teardown steps. -/
structure RunBotResult where
  raised : Option String
  unretrievedTaskError : Option String
  pendingCancelled : Bool
  sessionClosed : Bool
deriving Repr, DecidableEq

/-- `run_bot`: `asyncio.wait` itself never re-raises a completed task's
exception — it returns the `(done, pending)` sets.  The code then
cancels every pending task (swallowing its `CancelledError`), closes
the transport session, and returns.  No statement ever awaits a member
of `done` or reads its `.exception()`, so a polling failure stays
inside the task object and nothing propagates. -/
def run_bot (w : RaceWinner) : RunBotResult :=
  let doneTaskError : Option String :=
    match w with
    | .pollingFails e => some e
    | .pollingReturns => none
    | .shutdownSignaled => none
  { raised := none
    unretrievedTaskError := doneTaskError
    pendingCancelled := true
    sessionClosed := true }

/-- Observable outcome of `main`'s try/except/finally around
`run_bot`. -/
structure MainResult where
  exitCode : Nat
  loggedCritical : Bool
  dbClosed : Bool
deriving Repr, DecidableEq

/-- `main`: `except Exception` logs and re-raises whatever `run_bot`
raises (making the process exit non-zero); `finally` closes the store
unconditionally. -/
def mainRun (w : RaceWinner) : MainResult :=
  let r := run_bot w
  { exitCode := match r.raised with | some _ => 1 | none => 0
    loggedCritical := r.raised.isSome
    dbClosed := true }

/-- C9: evaluating the lifecycle code at the claim's scenario — the
polling loop fails with an unhandled exception during the race.  The
teardown steps do run (`session closed`, `store closed`), but the
failure never propagates: `run_bot` returns normally with the exception
unretrieved, nothing is logged as critical, and the process exits 0 —
not non-zero as the claim states. -/
theorem loop_failure_swallowed :
    (run_bot (.pollingFails "polling failed")).raised = none ∧
    (run_bot (.pollingFails "polling failed")).unretrievedTaskError =
      some "polling failed" ∧
    (run_bot (.pollingFails "polling failed")).sessionClosed = true ∧
    (mainRun (.pollingFails "polling failed")).exitCode = 0 ∧
    (mainRun (.pollingFails "polling failed")).loggedCritical = false ∧
    (mainRun (.pollingFails "polling failed")).dbClosed = true :=
  ⟨rfl, rfl, rfl, rfl, rfl, rfl⟩

/-! ## The admission gate under interleaving (C5)

`_get_connection` drives every operation through the same scope:
acquire a semaphore slot, open a connection bounded by a timeout, run
the body, and in `finally` close the connection (if open) and release
the slot.  We model each logically concurrent operation as a task
holding its remaining action sequence, and the system as an
interleaving of single-action steps gated by the semaphore counter. -/

/-- One micro-action of `_get_connection`. -/
inductive GAction where
  | acquire
  | openC
  | body
  | closeC
  | release
deriving Repr, DecidableEq

/-- A logically concurrent operation in flight. -/
structure GTask where
  rem : List GAction
  hasSlot : Bool
  hasConn : Bool
deriving Repr, DecidableEq

/-- The action sequence one operation performs, by I/O outcome.  On a
connection-open timeout the `body` step is the failed `wait_for`: no
connection ever opens, and `finally` only releases the slot. -/
def connProgram : ConnOutcome → List GAction
  | .ok => [.acquire, .openC, .body, .closeC, .release]
  | .connectTimeout => [.acquire, .body, .release]
  | .queryFailure _ => [.acquire, .openC, .body, .closeC, .release]

/-- A task that has not started yet. -/
def initTask (io : ConnOutcome) : GTask :=
  { rem := connProgram io, hasSlot := false, hasConn := false }

/-- Semaphore counter plus the task pool. -/
structure SysConfig where
  sem : Nat
  tasks : List GTask
deriving Repr, DecidableEq

/-- Initial configuration: full semaphore, all tasks pending. -/
def initConfig (cap : Nat) (ios : List ConnOutcome) : SysConfig :=
  { sem := cap, tasks := ios.map initTask }

/-- A task may run its next action; `acquire` additionally needs a free
slot (`asyncio.Semaphore.acquire` suspends otherwise). -/
def Enabled (sem : Nat) (t : GTask) : Prop :=
  match t.rem with
  | [] => False
  | .acquire :: _ => 0 < sem
  | _ :: _ => True

/-- Effect of one task running its next action. -/
def stepTask (sem : Nat) (t : GTask) : Nat × GTask :=
  match t.rem with
  | [] => (sem, t)
  | .acquire :: r => (sem - 1, { t with rem := r, hasSlot := true })
  | .openC :: r => (sem, { t with rem := r, hasConn := true })
  | .body :: r => (sem, { t with rem := r })
  | .closeC :: r => (sem, { t with rem := r, hasConn := false })
  | .release :: r => (sem + 1, { t with rem := r, hasSlot := false })

/-- Interleaving semantics: any enabled task runs its next action. -/
inductive SysStep : SysConfig → SysConfig → Prop where
  | step {c : SysConfig} (i : Nat) (hi : i < c.tasks.length)
      (hen : Enabled c.sem c.tasks[i]) :
      SysStep c { sem := (stepTask c.sem c.tasks[i]).1
                  tasks := c.tasks.set i (stepTask c.sem c.tasks[i]).2 }

/-- The residual shapes a task can be in, tied to which resources it
holds: exactly the suffixes of the two `connProgram`s. -/
def TaskWF (t : GTask) : Prop :=
  (t.hasSlot = false ∧ t.hasConn = false ∧
    (t.rem = [] ∨ t.rem = [.acquire, .openC, .body, .closeC, .release] ∨
     t.rem = [.acquire, .body, .release])) ∨
  (t.hasSlot = true ∧ t.hasConn = false ∧
    (t.rem = [.openC, .body, .closeC, .release] ∨ t.rem = [.body, .release] ∨
     t.rem = [.release])) ∨
  (t.hasSlot = true ∧ t.hasConn = true ∧
    (t.rem = [.body, .closeC, .release] ∨ t.rem = [.closeC, .release]))

/-- Number of tasks currently holding a semaphore slot. -/
def slotsHeld (c : SysConfig) : Nat := c.tasks.countP (fun t => t.hasSlot)

/-- Number of physical connections currently open. -/
def connsOpen (c : SysConfig) : Nat := c.tasks.countP (fun t => t.hasConn)

/-- System invariant: slots are conserved and every task is in a
residual shape of the acquire/open/close/release discipline. -/
def Inv (cap : Nat) (c : SysConfig) : Prop :=
  c.sem + slotsHeld c = cap ∧ ∀ t ∈ c.tasks, TaskWF t

lemma countP_set (p : GTask → Bool) (l : List GTask) (i : Nat) (a : GTask)
    (h : i < l.length) :
    (l.set i a).countP p + (if p l[i] then 1 else 0) =
      l.countP p + (if p a then 1 else 0) := by
  induction l generalizing i with
  | nil => simp at h
  | cons x xs ih =>
    cases i with
    | zero =>
      simp only [List.set, List.countP_cons, List.getElem_cons_zero]
      omega
    | succ n =>
      simp only [List.set, List.countP_cons, List.getElem_cons_succ]
      have := ih n (by simpa using h)
      omega

lemma summap_set (l : List GTask) (i : Nat) (a : GTask) (h : i < l.length) :
    ((l.set i a).map (fun t => t.rem.length)).sum + (l[i]).rem.length =
      (l.map (fun t => t.rem.length)).sum + a.rem.length := by
  induction l generalizing i with
  | nil => simp at h
  | cons x xs ih =>
    cases i with
    | zero =>
      simp only [List.set, List.map_cons, List.sum_cons, List.getElem_cons_zero]
      omega
    | succ n =>
      simp only [List.set, List.map_cons, List.sum_cons, List.getElem_cons_succ]
      have := ih n (by simpa using h)
      omega

lemma wf_after_set {c : SysConfig} {i : Nat}
    (hwf : ∀ t ∈ c.tasks, TaskWF t) {a : GTask} (ha : TaskWF a) :
    ∀ t ∈ c.tasks.set i a, TaskWF t := by
  intro t ht
  rcases List.mem_or_eq_of_mem_set ht with h | rfl
  · exact hwf t h
  · exact ha

lemma inv_step {cap : Nat} {c c2 : SysConfig} (hinv : Inv cap c)
    (hstep : SysStep c c2) : Inv cap c2 := by
  rcases hstep with ⟨i, hi, hen⟩
  obtain ⟨hsem, hwf⟩ := hinv
  have hwfi := hwf c.tasks[i] (List.getElem_mem hi)
  have hcount := countP_set (fun t => t.hasSlot) c.tasks i
    (stepTask c.sem c.tasks[i]).2 hi
  rcases hwfi with ⟨hs, hc, hr | hr | hr⟩ | ⟨hs, hc, hr | hr | hr⟩ |
    ⟨hs, hc, hr | hr⟩ <;>
    [skip;
     (have hsempos : 0 < c.sem := by simpa [Enabled, hr] using hen);
     (have hsempos : 0 < c.sem := by simpa [Enabled, hr] using hen);
     skip; skip; skip; skip; skip] <;>
    simp only [stepTask, hr] at hcount ⊢ <;>
    refine ⟨?_, wf_after_set hwf ?_⟩ <;>
    simp_all [Inv, slotsHeld, TaskWF] <;> omega

lemma inv_reach {cap : Nat} {c c2 : SysConfig} (hinv : Inv cap c)
    (h : Relation.ReflTransGen SysStep c c2) : Inv cap c2 := by
  induction h with
  | refl => exact hinv
  | tail hab hbc ih => exact inv_step ih hbc

lemma connsOpen_le {cap : Nat} {c : SysConfig} (hinv : Inv cap c) :
    connsOpen c ≤ cap := by
  obtain ⟨hsem, hwf⟩ := hinv
  have h1 : connsOpen c ≤ slotsHeld c := by
    apply List.countP_mono_left
    intro t ht hconn
    rcases hwf t ht with ⟨-, hc, -⟩ | ⟨hs, -, -⟩ | ⟨hs, -, -⟩
    · rw [hc] at hconn; exact absurd hconn (by simp)
    · exact hs
    · exact hs
  omega

lemma step_measure {c c2 : SysConfig} (h : SysStep c c2) :
    ((c2.tasks.map (fun t => t.rem.length)).sum <
      (c.tasks.map (fun t => t.rem.length)).sum) := by
  rcases h with ⟨i, hi, hen⟩
  have hsum := summap_set c.tasks i (stepTask c.sem c.tasks[i]).2 hi
  have hlen : (stepTask c.sem c.tasks[i]).2.rem.length + 1 =
      (c.tasks[i]).rem.length := by
    rcases hrem : (c.tasks[i]).rem with - | ⟨a, r⟩
    · exact absurd hen (by simp [Enabled, hrem])
    · cases a <;> simp [stepTask, hrem]
  dsimp only
  omega

lemma progress {cap : Nat} {c : SysConfig} (hcap : 0 < cap)
    (hinv : Inv cap c) (hne : ∃ t ∈ c.tasks, t.rem ≠ []) :
    ∃ c2, SysStep c c2 := by
  obtain ⟨hsem, hwf⟩ := hinv
  by_cases hslot : ∃ t ∈ c.tasks, t.hasSlot = true
  · obtain ⟨t, ht, hs⟩ := hslot
    obtain ⟨i, hi, hteq⟩ := List.mem_iff_getElem.mp ht
    subst hteq
    refine ⟨_, SysStep.step i hi ?_⟩
    rcases hwf _ (List.getElem_mem hi) with ⟨hs2, -, -⟩ |
      ⟨-, -, hr | hr | hr⟩ | ⟨-, -, hr | hr⟩
    · rw [hs] at hs2; exact absurd hs2 (by simp)
    all_goals simp [Enabled, hr]
  · push_neg at hslot
    obtain ⟨t, ht, htr⟩ := hne
    obtain ⟨i, hi, hteq⟩ := List.mem_iff_getElem.mp ht
    subst hteq
    have hsemeq : c.sem = cap := by
      have h0 : slotsHeld c = 0 := by
        rw [slotsHeld, List.countP_eq_zero]
        intro x hx
        simpa using hslot x hx
      omega
    refine ⟨_, SysStep.step i hi ?_⟩
    rcases hwf _ (List.getElem_mem hi) with ⟨-, -, hr | hr | hr⟩ |
      ⟨hs2, -, -⟩ | ⟨hs2, -, -⟩
    · exact absurd hr htr
    · simp only [Enabled, hr]; omega
    · simp only [Enabled, hr]; omega
    · exact absurd hs2 (by simpa using hslot _ (List.getElem_mem hi))
    · exact absurd hs2 (by simpa using hslot _ (List.getElem_mem hi))

lemma completion_aux {cap : Nat} (hcap : 0 < cap) :
    ∀ n (c : SysConfig), (c.tasks.map (fun t => t.rem.length)).sum ≤ n →
      Inv cap c →
      ∃ c2, Relation.ReflTransGen SysStep c c2 ∧ ∀ t ∈ c2.tasks, t.rem = [] := by
  intro n
  induction n with
  | zero =>
    intro c hm hinv
    refine ⟨c, .refl, fun t ht => ?_⟩
    have h0 : (c.tasks.map (fun t => t.rem.length)).sum = 0 := Nat.le_zero.mp hm
    have := List.sum_eq_zero_iff.mp h0 t.rem.length
      (List.mem_map.mpr ⟨t, ht, rfl⟩)
    exact List.eq_nil_of_length_eq_zero this
  | succ n ih =>
    intro c hm hinv
    by_cases hall : ∀ t ∈ c.tasks, t.rem = []
    · exact ⟨c, .refl, hall⟩
    · push_neg at hall
      obtain ⟨c2, hstep⟩ := progress hcap hinv hall
      obtain ⟨c3, hr, hdone⟩ := ih c2
        (by have := step_measure hstep; omega) (inv_step hinv hstep)
      exact ⟨c3, Relation.ReflTransGen.head hstep hr, hdone⟩

lemma inv_init (cap : Nat) (ios : List ConnOutcome) :
    Inv cap (initConfig cap ios) := by
  constructor
  · have h0 : slotsHeld (initConfig cap ios) = 0 := by
      rw [slotsHeld, List.countP_eq_zero]
      intro t ht
      rcases List.mem_map.mp ht with ⟨io, -, rfl⟩
      simp [initTask]
    rw [h0]
    simp [initConfig]
  · intro t ht
    rcases List.mem_map.mp ht with ⟨io, -, rfl⟩
    cases io <;> simp [initTask, TaskWF, connProgram]

/-- An event trace leaks nothing: every acquired slot is released and
every opened connection is closed. -/
def balancedEvents (es : List Event) : Prop :=
  es.count .gateAcquire = es.count .gateRelease ∧
  es.count .connOpen = es.count .connClose

lemma balanced_runWithConnection {α : Type} (st : ManagerState)
    (io : ConnOutcome) (body : DB → α × DB) :
    balancedEvents (runWithConnection st io body).events := by
  unfold runWithConnection
  by_cases h : st.semaphoreCap.isSome <;> cases io <;>
    simp [h, balancedEvents]

/-- C5: (i) on every exit path — success, connection-open timeout, or a
raised query error — each of the four operations releases exactly the
gate slots it acquired and closes exactly the connections it opened;
(ii) in the gate transition system with capacity `cap > 0`, no
configuration reachable from any set of pending operations ever has
more than `cap` open connections; (iii) some interleaving runs every
pending operation to completion; and (iv) no reachable configuration
is stuck with work remaining — combined with the strictly decreasing
step measure this means every maximal run completes all operations. -/
theorem gate_discipline (cap : Nat) (ios : List ConnOutcome)
    (st : ManagerState) (v w : PyVal) (io : ConnOutcome) (hcap : 0 < cap) :
    (balancedEvents (get_user_topic st v io).events ∧
     balancedEvents (get_user_by_topic st v io).events ∧
     balancedEvents (create_user_topic st v w io).events ∧
     balancedEvents (delete_user_topic st v io).events) ∧
    (∀ c2, Relation.ReflTransGen SysStep (initConfig cap ios) c2 →
      connsOpen c2 ≤ cap) ∧
    (∃ c2, Relation.ReflTransGen SysStep (initConfig cap ios) c2 ∧
      ∀ t ∈ c2.tasks, t.rem = []) ∧
    (∀ c2, Relation.ReflTransGen SysStep (initConfig cap ios) c2 →
      (∀ c3, ¬ SysStep c2 c3) → ∀ t ∈ c2.tasks, t.rem = []) := by
  refine ⟨⟨?_, ?_, ?_, ?_⟩, ?_, ?_, ?_⟩
  · unfold get_user_topic
    by_cases hv : isValidId v <;> simp [hv, balancedEvents]
    exact balanced_runWithConnection st io _
  · unfold get_user_by_topic
    by_cases hv : isValidId v <;> simp [hv, balancedEvents]
    exact balanced_runWithConnection st io _
  · unfold create_user_topic
    by_cases hv : isValidId v <;> by_cases hw : isValidId w <;>
      simp [hv, hw, balancedEvents]
    exact balanced_runWithConnection st io _
  · unfold delete_user_topic
    by_cases hv : isValidId v <;> simp [hv, balancedEvents]
    exact balanced_runWithConnection st io _
  · intro c2 hreach
    exact connsOpen_le (inv_reach (inv_init cap ios) hreach)
  · exact completion_aux hcap _ (initConfig cap ios) (Nat.le_refl _)
      (inv_init cap ios)
  · intro c2 hreach hstuck t ht
    by_contra hne
    obtain ⟨c3, hstep⟩ :=
      progress hcap (inv_reach (inv_init cap ios) hreach) ⟨t, ht, hne⟩
    exact hstuck c3 hstep

/-- Witness for C5 at capacity 1 with two pending operations (one more
than the capacity). -/
theorem gate_discipline_witness :
    (0 < 1) ∧
    ((balancedEvents (get_user_topic readyStore (.intVal 1) .ok).events ∧
      balancedEvents (get_user_by_topic readyStore (.intVal 1) .ok).events ∧
      balancedEvents
        (create_user_topic readyStore (.intVal 1) (.intVal 2) .ok).events ∧
      balancedEvents (delete_user_topic readyStore (.intVal 1) .ok).events) ∧
     (∀ c2, Relation.ReflTransGen SysStep (initConfig 1 [.ok, .ok]) c2 →
       connsOpen c2 ≤ 1) ∧
     (∃ c2, Relation.ReflTransGen SysStep (initConfig 1 [.ok, .ok]) c2 ∧
       ∀ t ∈ c2.tasks, t.rem = []) ∧
     (∀ c2, Relation.ReflTransGen SysStep (initConfig 1 [.ok, .ok]) c2 →
       (∀ c3, ¬ SysStep c2 c3) → ∀ t ∈ c2.tasks, t.rem = [])) :=
  ⟨by decide,
   gate_discipline 1 [.ok, .ok] readyStore (.intVal 1) (.intVal 2) .ok
     (by decide)⟩

end SupportBot
